import Mathlib

/-!
A shallow embedding of the real-time telemetry / adaptive resource-scheduling
core of `src/src/command_center/overwatch_toss.py` (class `AdvancedOverwatchTOSS`),
together with theorems settling the specification claims about it.

Python floats are modelled as rationals, Python lists as Lean lists, and the
`quantum_processors` dict as an association list in insertion order (Python
dicts preserve insertion order).  Timestamps, logging, and randomly generated
result payloads are elided: they do not affect the control flow or the state
fields the claims are about.  Whether the simulated task work completes or
raises is injected as an explicit `WorkOutcome` parameter.
-/

namespace OverwatchTOSS

/-- Stream events are opaque payloads; their content is never inspected by the
core, so they are modelled by `Nat`. -/
abbrev Event := Nat

/-- Embeds the `QuantumState` dataclass (fields used by the core:
`coherence` — the unit's quality score — and `superposition`;
`last_measurement` timestamps are elided). -/
structure QuantumState where
  coherence : ℚ
  superposition : Bool
  deriving Repr, DecidableEq

/-- Embeds one entry of `self.quantum_processors`: a dict with keys
`qubits`, `coherence_time`, `fidelity`, `state`, `current_tasks`,
`processing_power` (see `_initialize_quantum_processors`). -/
structure Processor where
  qubits : Nat
  coherence_time : Nat
  fidelity : ℚ
  state : QuantumState
  current_tasks : List String
  processing_power : Nat
  deriving Repr, DecidableEq

/-- The `quantum_processors` dict: unit id to processor, in insertion order. -/
abbrev Pool := List (String × Processor)

/-- `quantum_core_1` as built by `_initialize_quantum_processors` (lines 306-331). -/
def core1 : String × Processor :=
  ("quantum_core_1",
   { qubits := 64, coherence_time := 100, fidelity := 999/1000,
     state := { coherence := 1, superposition := true },
     current_tasks := [], processing_power := 1000 })

/-- `quantum_core_2` as built by `_initialize_quantum_processors`. -/
def core2 : String × Processor :=
  ("quantum_core_2",
   { qubits := 32, coherence_time := 80, fidelity := 998/1000,
     state := { coherence := 95/100, superposition := true },
     current_tasks := [], processing_power := 500 })

/-- `quantum_core_3` as built by `_initialize_quantum_processors`. -/
def core3 : String × Processor :=
  ("quantum_core_3",
   { qubits := 16, coherence_time := 120, fidelity := 997/1000,
     state := { coherence := 98/100, superposition := false },
     current_tasks := [], processing_power := 250 })

/-- The pool built by `_initialize_quantum_processors` (lines 306-331). -/
def initialProcessors : Pool := [core1, core2, core3]

/-- The admission predicate of `execute_quantum_task` line 461:
`len(processor['current_tasks']) < 2`  ("Max 2 concurrent tasks"). -/
def hasSpare (p : Processor) : Bool := p.current_tasks.length < 2

/-- The admission scan of `execute_quantum_task` lines 458-463: iterate the
pool in insertion order and take the first processor with fewer than 2
active tasks (`break` on the first hit). -/
def findAvailable (pool : Pool) : Option String :=
  (pool.find? (fun e => hasSpare e.2)).map Prod.fst

/-- In-place mutation of the processor stored under key `pid`
(`self.quantum_processors[available_processor]` is aliased and mutated). -/
def modifyProc (pool : Pool) (pid : String) (f : Processor → Processor) : Pool :=
  pool.map (fun e => if e.1 = pid then (e.1, f e.2) else e)

/-- Whether the simulated task work (the `await asyncio.sleep` /
`_generate_quantum_result` section of the `try` block) completes or raises. -/
inductive WorkOutcome
  | ok
  | raises
  deriving Repr, DecidableEq

/-- Outcome of a call to `execute_quantum_task` as seen by its caller:
`resourceExhausted` models `raise Exception("No quantum processor available")`
(line 466); `completed pid` models a normal return of the result dict;
`raised pid` models an exception escaping to the caller — the function body
has a `try`/`finally` but no `except` clause, so work exceptions propagate. -/
inductive ExecResult
  | resourceExhausted
  | completed (pid : String)
  | raised (pid : String)
  deriving Repr, DecidableEq

/-- Line 473: `processor['current_tasks'].append(task_id)`. -/
def addTask (t : String) (p : Processor) : Processor :=
  { p with current_tasks := p.current_tasks ++ [t] }

/-- Line 495: `processor['state'].coherence *= 0.99`  (slight decoherence,
applied after successful completion only). -/
def decayCoherence (p : Processor) : Processor :=
  { p with state := { p.state with coherence := p.state.coherence * (99/100) } }

/-- Lines 502-504 (the `finally` block):
`if task_id in processor['current_tasks']: processor['current_tasks'].remove(task_id)`;
Python `list.remove` deletes the first occurrence, i.e. `List.erase`. -/
def releaseTask (t : String) (p : Processor) : Processor :=
  if t ∈ p.current_tasks then { p with current_tasks := p.current_tasks.erase t } else p

/-- Embeds `execute_quantum_task` (lines 450-504): admission scan, append to
`current_tasks`, simulated work, quality decay on success, and the `finally`
release.  On a work exception the decay is skipped (it sits later in the
`try` block) but the `finally` release still runs, and the exception then
propagates to the caller (`ExecResult.raised`). -/
def executeQuantumTask (pool : Pool) (taskId : String) (work : WorkOutcome) :
    ExecResult × Pool :=
  match findAvailable pool with
  | none => (ExecResult.resourceExhausted, pool)
  | some pid =>
    let admitted := modifyProc pool pid (addTask taskId)
    match work with
    | WorkOutcome.ok =>
        let decayed := modifyProc admitted pid decayCoherence
        (ExecResult.completed pid, modifyProc decayed pid (releaseTask taskId))
    | WorkOutcome.raises =>
        (ExecResult.raised pid, modifyProc admitted pid (releaseTask taskId))

/-- Lines 733-736 of `_perform_adaptive_optimization`: a unit whose coherence
is below 0.7 gets `coherence = min(1.0, coherence + 0.1)`. -/
def recalibrateUnit (p : Processor) : Processor :=
  if p.state.coherence < 7/10 then
    { p with state := { p.state with coherence := min 1 (p.state.coherence + 1/10) } }
  else p

/-- The recalibration sweep over the whole pool (lines 732-736). -/
def recalibrateAll (pool : Pool) : Pool :=
  pool.map (fun e => (e.1, recalibrateUnit e.2))

/-- Number of `recalibrate-unit` mitigation actions one sweep issues: one log
line `"Optimized quantum processor …"` per unit below the 0.7 threshold. -/
def recalCount (pool : Pool) : Nat :=
  (pool.filter (fun e => decide (e.2.state.coherence < 7/10))).length

/-- Embeds `_process_quantum_data` (lines 601-614): for every processor whose
id is a key of the incoming stream-data dict, overwrite its coherence with
`data[processor_id].get('coherence', current)` — no clamping.  `data` maps a
processor id to the optional `'coherence'` entry of its sub-dict. -/
def processQuantumData (pool : Pool) (data : List (String × Option ℚ)) : Pool :=
  pool.map (fun e =>
    match data.lookup e.1 with
    | none => e
    | some v =>
        (e.1, { e.2 with state := { e.2.state with coherence := v.getD e.2.state.coherence } }))

/-- The drain loop of `_perform_adaptive_optimization` lines 747-751:
`for _ in range(n): try: queue.get_nowait() except QueueEmpty: break` —
removes up to `n` oldest entries, stopping as soon as the queue is empty. -/
def drainUpTo : Nat → List Event → List Event
  | 0, q => q
  | _ + 1, [] => []
  | n + 1, _ :: rest => drainUpTo n rest

/-- The per-stream shed of lines 744-752: if `queue.qsize() > 800` (a fixed
constant, "80% capacity" only of the 1000-slot streams), drain up to 100
entries. -/
def shedStream (q : List Event) : List Event :=
  if 800 < q.length then drainUpTo 100 q else q

/-- Number of `shed-channel` mitigation actions one sweep issues: one log line
`"Cleared overloaded stream …"` per stream with `qsize() > 800`. -/
def shedCount (streams : List (String × List Event)) : Nat :=
  (streams.filter (fun s => decide (800 < s.2.length))).length

/-- Embeds the `AdvancedMetrics` dataclass backing `self.performance_metrics`. -/
structure AdvancedMetrics where
  processing_efficiency : ℚ
  predictive_accuracy : ℚ
  system_reliability : ℚ
  quantum_coherence : ℚ
  ai_confidence : ℚ
  real_time_performance : ℚ
  cross_system_correlation : ℚ
  deriving Repr, DecidableEq

/-- The mutable state touched by the adaptive-optimization tick. -/
structure SysState where
  quantum_processors : Pool
  data_streams : List (String × List Event)
  performance_metrics : AdvancedMetrics
  deriving Repr, DecidableEq

/-- Embeds `_needs_optimization` (lines 705-725): true when any performance
metric is below its hard-coded threshold. -/
def needsOptimization (m : AdvancedMetrics) : Bool :=
  decide (m.processing_efficiency < 7/10) || decide (m.predictive_accuracy < 8/10) ||
  decide (m.system_reliability < 9/10) || decide (m.quantum_coherence < 6/10) ||
  decide (m.ai_confidence < 3/4) || decide (m.real_time_performance < 8/10)

/-- Embeds `_perform_adaptive_optimization` (lines 727-757): recalibrate every
unit below the 0.7 coherence threshold, then shed every stream holding more
than 800 entries.  Returns the new state together with the number of
mitigation actions (recalibrations plus sheds) issued.  The performance
metrics are read nowhere and written nowhere in this function. -/
def performAdaptiveOptimization (s : SysState) : SysState × Nat :=
  ({ quantum_processors := recalibrateAll s.quantum_processors,
     data_streams := s.data_streams.map (fun st => (st.1, shedStream st.2)),
     performance_metrics := s.performance_metrics },
   recalCount s.quantum_processors + shedCount s.data_streams)

/-- One iteration of `_adaptive_optimization_loop` (lines 434-448): run the
optimization sweep only when `_needs_optimization` holds. -/
def adaptiveLoopTick (s : SysState) : SysState × Nat :=
  if needsOptimization s.performance_metrics then performAdaptiveOptimization s
  else (s, 0)

/-- The keys of the metrics payload published by `_publish_performance_metrics`
(lines 688-703), minus the timestamp: the snapshot has exactly these seven
numeric fields and nothing else. -/
def publishedMetricKeys : List String :=
  ["processing_efficiency", "predictive_accuracy", "system_reliability",
   "quantum_coherence", "ai_confidence", "real_time_performance",
   "cross_system_correlation"]

/-- The metrics payload of `_publish_performance_metrics` (timestamp elided). -/
def publishedMetrics (m : AdvancedMetrics) : List (String × ℚ) :=
  [("processing_efficiency", m.processing_efficiency),
   ("predictive_accuracy", m.predictive_accuracy),
   ("system_reliability", m.system_reliability),
   ("quantum_coherence", m.quantum_coherence),
   ("ai_confidence", m.ai_confidence),
   ("real_time_performance", m.real_time_performance),
   ("cross_system_correlation", m.cross_system_correlation)]

/-- The operations that mutate pool state in the source. -/
inductive PoolOp
  | exec (taskId : String) (work : WorkOutcome)
  | recalibrate
  | quantumData (data : List (String × Option ℚ))

/-- Effect of one pool operation. -/
def stepPool (pool : Pool) : PoolOp → Pool
  | PoolOp.exec t w => (executeQuantumTask pool t w).2
  | PoolOp.recalibrate => recalibrateAll pool
  | PoolOp.quantumData d => processQuantumData pool d

/-- A sequence of pool operations starting from `pool`. -/
def runPool (pool : Pool) (ops : List PoolOp) : Pool := ops.foldl stepPool pool

/-- Operations internal to the scheduling core (task decay and controller
recalibration), as opposed to the stream-fed coherence overwrite of
`_process_quantum_data`. -/
def isInternalOp : PoolOp → Bool
  | PoolOp.quantumData _ => false
  | _ => true

/-- Keys of the pool dict are distinct (true of any Python dict). -/
abbrev KeysNodup (pool : Pool) : Prop := (pool.map Prod.fst).Nodup

/-- The admission invariant: no unit holds more than 2 concurrent tasks. -/
abbrev CapInv (pool : Pool) : Prop := ∀ e ∈ pool, e.2.current_tasks.length ≤ 2

/-- The quality bound invariant: every coherence lies in [0, 1]. -/
abbrev QualityInv (pool : Pool) : Prop :=
  ∀ e ∈ pool, 0 ≤ e.2.state.coherence ∧ e.2.state.coherence ≤ 1

/-- The per-unit view the exactly-once-release claims are about. -/
def activeSets (pool : Pool) : List (String × List String) :=
  pool.map (fun e => (e.1, e.2.current_tasks))

/-- One dequeue attempt of `_process_data_stream`:
`await asyncio.wait_for(queue.get(), timeout=1.0)` either times out or
yields an event. -/
inductive DequeueOutcome
  | timeout
  | dequeued (e : Event)
  deriving Repr, DecidableEq

/-- Whether dispatching an event to the stream's handler raises. -/
inductive HandlerOutcome
  | ok
  | raises
  deriving Repr, DecidableEq

/-- What the loop does after one iteration: `continueLoop` re-enters the
`while True`; `exitLoop` / `propagate` would leave it (never produced by the
code, which catches `TimeoutError` with `continue` and every other exception
with a log statement). -/
inductive LoopControl
  | continueLoop
  | exitLoop
  | propagate
  deriving Repr, DecidableEq

/-- One iteration of the `while True` body of `_process_data_stream`
(lines 364-390): returns the event dispatched to the handler (if any) and
what the loop does next. -/
def processStreamIteration (handler : Event → HandlerOutcome) :
    DequeueOutcome → Option Event × LoopControl
  | DequeueOutcome.timeout => (none, LoopControl.continueLoop)
  | DequeueOutcome.dequeued e =>
      match handler e with
      | HandlerOutcome.ok => (some e, LoopControl.continueLoop)
      | HandlerOutcome.raises => (some e, LoopControl.continueLoop)

/-- Runs the stream loop over a finite trace of dequeue outcomes, collecting
the events dispatched to the handler; the loop stops early if an iteration
ever yields `exitLoop` or `propagate`. -/
def runStreamLoop (handler : Event → HandlerOutcome) :
    List DequeueOutcome → List Event
  | [] => []
  | d :: rest =>
      match processStreamIteration handler d with
      | (disp, LoopControl.continueLoop) => disp.toList ++ runStreamLoop handler rest
      | (disp, _) => disp.toList

/-- The event carried by a dequeue outcome, if any. -/
def dequeuedEvent : DequeueOutcome → Option Event
  | DequeueOutcome.timeout => none
  | DequeueOutcome.dequeued e => some e

/-- All-zero performance metrics (the initial value set in `__init__`,
lines 100-108); every metric is below its `_needs_optimization` threshold. -/
def metricsZero : AdvancedMetrics :=
  { processing_efficiency := 0, predictive_accuracy := 0, system_reliability := 0,
    quantum_coherence := 0, ai_confidence := 0, real_time_performance := 0,
    cross_system_correlation := 0 }

/-- A system state with a healthy pool and a stream loaded with 901 events
(below the 1000-slot capacity of `surveillance_stream`, above the fixed
800-entry shed threshold). -/
def overloadedState : SysState :=
  { quantum_processors := initialProcessors,
    data_streams := [("surveillance_stream", List.replicate 901 0)],
    performance_metrics := metricsZero }

/-- The pool state while two admitted tasks are still executing on
`quantum_core_1` (each in the window between the `append` of line 473 and the
`finally` of lines 501-504): both slots of core 1 are taken, cores 2 and 3
are idle at their initial qualities 0.95 and 0.98. -/
def busyPool : Pool :=
  [(core1.1, addTask "t2" (addTask "t1" core1.2)), core2, core3]

/-- The pool state with every slot of every unit taken (six tasks in
flight): no unit has spare capacity. -/
def fullPool : Pool :=
  [(core1.1, addTask "b" (addTask "a" core1.2)),
   (core2.1, addTask "d" (addTask "c" core2.2)),
   (core3.1, addTask "f" (addTask "e" core3.2))]

/-- The state `overloadedState` reaches after one adaptive-optimization tick:
the healthy pool is untouched and the overloaded stream has been shed from
901 down to 801 entries — still above the fixed 800-entry threshold. -/
def overloadedStateAfterTick : SysState :=
  { quantum_processors := initialProcessors,
    data_streams := [("surveillance_stream", List.replicate 801 0)],
    performance_metrics := metricsZero }

/-! ### Helper lemmas -/

theorem drainUpTo_eq_drop (n : Nat) (q : List Event) : drainUpTo n q = q.drop n := by
  induction n generalizing q with
  | zero => simp [drainUpTo]
  | succ n ih =>
    cases q with
    | nil => simp [drainUpTo]
    | cons a t => simp [drainUpTo, ih t]

theorem drop_replicate (m n : Nat) (a : Event) :
    (List.replicate (m + n) a).drop m = List.replicate n a := by
  induction m with
  | zero => simp
  | succ m ih =>
    rw [show m + 1 + n = (m + n) + 1 from by omega, List.replicate_succ,
      List.drop_succ_cons, ih]

/-! ### Claims about the shed/drain mechanism -/

/-- C10: the controller-initiated drain of a stream removes exactly
`min(100, depth)` events — it takes the 100 oldest entries (the front of the
queue) and stops as soon as the queue is empty, so it never blocks, never
raises, and the depth never goes below 0 (the result is a suffix of the
original queue of length `depth - min(100, depth)`). -/
theorem drain_removes_min_depth (q : List Event) :
    drainUpTo 100 q = q.drop 100 ∧
    (drainUpTo 100 q).length = q.length - min 100 q.length ∧
    q.length - (drainUpTo 100 q).length = min 100 q.length := by
  refine ⟨drainUpTo_eq_drop 100 q, ?_, ?_⟩ <;>
    rw [drainUpTo_eq_drop, List.length_drop] <;> omega

/-- C7 (amended): shedding is governed by fixed constants, not by the
channel's own capacity — a stream is shed exactly when its depth strictly
exceeds 800, in which case its 100 oldest entries are removed; at depth at
most 800 (in particular, always, for a 500-capacity stream) nothing is
shed. -/
theorem shed_fixed_threshold_and_batch (q : List Event) :
    (q.length ≤ 800 → shedStream q = q) ∧
    (800 < q.length →
      shedStream q = q.drop 100 ∧ (shedStream q).length = q.length - 100) := by
  constructor
  · intro h
    simp [shedStream, Nat.not_lt.mpr h]
  · intro h
    rw [shedStream, if_pos h, drainUpTo_eq_drop]
    exact ⟨rfl, by rw [List.length_drop]⟩

/-- Witness for C7 (amended): a stream holding 801 events is shed down to
exactly 701 events. -/
theorem shed_fixed_threshold_and_batch_witness :
    shedStream (List.replicate 801 (0 : Event)) = List.replicate 701 0 := by
  have h := (shed_fixed_threshold_and_batch (List.replicate 801 (0 : Event))).2
    (by rw [List.length_replicate]; omega)
  rw [h.1, show (801 : Nat) = 100 + 701 from rfl, drop_replicate]

/-- The optimization sweep transforms the stream table by per-stream
shedding (definitional projection of `performAdaptiveOptimization`). -/
theorem tick_data_streams (s : SysState) :
    (performAdaptiveOptimization s).1.data_streams
      = s.data_streams.map (fun st => (st.1, shedStream st.2)) := rfl

/-- C7 counterexample: `quantum_stream` has capacity 500, so the claimed
shed threshold would be 400 and the claimed batch 50; but at depth 450
(at or above 400) the optimization sweep sheds nothing at all — the code
compares the depth against the fixed constant 800, which a 500-capacity
stream can never exceed. -/
theorem shed_ignores_channel_capacity :
    (performAdaptiveOptimization
        { quantum_processors := [],
          data_streams := [("quantum_stream", List.replicate 450 0)],
          performance_metrics := metricsZero }).1.data_streams
      = [("quantum_stream", List.replicate 450 0)] ∧
    shedCount [("quantum_stream", List.replicate 450 (0 : Event))] = 0 := by
  constructor
  · rw [tick_data_streams, List.map_cons, List.map_nil, shedStream,
      if_neg (by rw [List.length_replicate]; omega)]
  · rw [shedCount, List.filter_eq_nil_iff.mpr ?_, List.length_nil]
    intro a ha
    rw [List.mem_singleton] at ha
    subst ha
    simp only [List.length_replicate, decide_eq_true_eq]
    omega

/-- C8 counterexample: the optimization sweep discards 100 events from the
overloaded stream (depth 901 drops to 801), yet the performance-metrics
snapshot — the only metrics state the system has — is left completely
unchanged: no per-channel "dropped" counter is incremented anywhere. -/
theorem shed_not_counted :
    (performAdaptiveOptimization overloadedState).1.data_streams
      = [("surveillance_stream", List.replicate 801 0)] ∧
    publishedMetrics (performAdaptiveOptimization overloadedState).1.performance_metrics
      = publishedMetrics overloadedState.performance_metrics := by
  constructor
  · rw [tick_data_streams,
      show overloadedState.data_streams = [("surveillance_stream", List.replicate 901 0)] from rfl,
      List.map_cons, List.map_nil, shedStream,
      if_pos (by rw [List.length_replicate]; omega), drainUpTo_eq_drop,
      show (901 : Nat) = 100 + 801 from rfl, drop_replicate]
  · rfl

/-- C8 (amended): shed events are not counted anywhere — the optimization
sweep never writes the performance metrics, and the metrics payload published
by `_publish_performance_metrics` consists of exactly the seven fixed
`AdvancedMetrics` fields; no per-channel "dropped" counter exists in it. -/
theorem tick_preserves_metrics (s : SysState) (m : AdvancedMetrics) :
    (performAdaptiveOptimization s).1.performance_metrics = s.performance_metrics ∧
    (publishedMetrics m).map Prod.fst = publishedMetricKeys ∧
    "dropped" ∉ publishedMetricKeys :=
  ⟨rfl, rfl, by decide⟩

/-! ### Claims about the stream-processing loop -/

/-- C9: the stream-processor loop never terminates because of a dequeue
timeout or a handler exception: every iteration — timeout, successful
dispatch, or raising dispatch — re-enters the loop, and consequently a run
over any finite trace of dequeue outcomes dispatches every dequeued event to
the handler, regardless of which events make the handler raise. -/
theorem stream_loop_never_stops (handler : Event → HandlerOutcome)
    (trace : List DequeueOutcome) :
    (∀ d, (processStreamIteration handler d).2 = LoopControl.continueLoop) ∧
    runStreamLoop handler trace = trace.filterMap dequeuedEvent := by
  constructor
  · intro d
    cases d with
    | timeout => rfl
    | dequeued e => cases h : handler e <;> simp [processStreamIteration, h]
  · induction trace with
    | nil => rfl
    | cons d rest ih =>
      cases d with
      | timeout =>
        simpa [runStreamLoop, processStreamIteration, dequeuedEvent] using ih
      | dequeued e =>
        cases h : handler e <;>
          simp [runStreamLoop, processStreamIteration, dequeuedEvent, h, ih]

/-! ### Claims about admission -/

/-- C1 counterexample: while both slots of `quantum_core_1` are occupied,
`quantum_core_2` (quality 0.95) and `quantum_core_3` (quality 0.98) both have
spare capacity, yet the admission scan assigns the new task to
`quantum_core_2` — the first unit with spare capacity in dict order — and not
to the higher-quality `quantum_core_3`, contradicting highest-quality
selection. -/
theorem admission_ignores_quality :
    findAvailable busyPool = some "quantum_core_2" ∧
    ∃ e ∈ busyPool, e.1 = "quantum_core_3" ∧ hasSpare e.2 = true ∧
      ∀ e2 ∈ busyPool, e2.1 = "quantum_core_2" →
        e2.2.state.coherence < e.2.state.coherence := by
  refine ⟨by decide, core3, by simp [busyPool], by decide, by decide, ?_⟩
  intro e2 he2 hid
  simp only [busyPool, List.mem_cons, List.not_mem_nil, or_false] at he2
  rcases he2 with rfl | rfl | rfl
  · exact absurd hid (by decide)
  · show (95 / 100 : ℚ) < 98 / 100
    norm_num
  · exact absurd hid (by decide)

/-- C1 (amended): admission ignores quality entirely — `findAvailable`
returns `pid` exactly when the pool splits as `busy ++ e :: rest` where `e`
is the entry named `pid`, `e` has spare capacity, and every unit listed
before `e` is full; i.e. the first unit in dict-insertion order with spare
capacity is selected, whatever the qualities are. -/
theorem admission_selects_first_spare (pool : Pool) (pid : String) :
    findAvailable pool = some pid ↔
      ∃ busy e rest, pool = busy ++ e :: rest ∧ e.1 = pid ∧ hasSpare e.2 = true ∧
        ∀ x ∈ busy, hasSpare x.2 = false := by
  unfold findAvailable
  rw [Option.map_eq_some']
  constructor
  · rintro ⟨e, hfind, rfl⟩
    rw [List.find?_eq_some] at hfind
    obtain ⟨hp, as, bs, rfl, hall⟩ := hfind
    refine ⟨as, e, bs, rfl, rfl, hp, fun x hx => ?_⟩
    simpa using hall x hx
  · rintro ⟨busy, e, rest, rfl, rfl, hsp, hbusy⟩
    refine ⟨e, ?_, rfl⟩
    rw [List.find?_eq_some]
    exact ⟨hsp, busy, rest, rfl, fun a ha => by simp [hbusy a ha]⟩

/-- Witness for C1 (amended): applied to the concrete busy pool, the
characterization yields the unit the code actually picks. -/
theorem admission_selects_first_spare_witness :
    findAvailable busyPool = some "quantum_core_2" :=
  (admission_selects_first_spare busyPool "quantum_core_2").mpr
    ⟨[(core1.1, addTask "t2" (addTask "t1" core1.2))], core2, [core3],
      rfl, rfl, by decide, by decide⟩

/-! ### Structural lemmas about the pool mutators -/

theorem keys_modifyProc (pool : Pool) (pid : String) (f : Processor → Processor) :
    (modifyProc pool pid f).map Prod.fst = pool.map Prod.fst := by
  unfold modifyProc
  rw [List.map_map]
  refine List.map_congr_left fun e he => ?_
  by_cases h : e.1 = pid <;> simp [h]

theorem modifyProc_modifyProc (pool : Pool) (pid : String)
    (f g : Processor → Processor) :
    modifyProc (modifyProc pool pid f) pid g
      = modifyProc pool pid (fun p => g (f p)) := by
  unfold modifyProc
  rw [List.map_map]
  refine List.map_congr_left fun e he => ?_
  by_cases h : e.1 = pid <;> simp [h]

theorem keysNodup_inj {pool : Pool} (hnd : KeysNodup pool)
    {e e2 : String × Processor} (he : e ∈ pool) (he2 : e2 ∈ pool)
    (h : e.1 = e2.1) : e = e2 :=
  List.inj_on_of_nodup_map hnd he he2 h

theorem addTask_tasks (t : String) (p : Processor) :
    (addTask t p).current_tasks = p.current_tasks ++ [t] := rfl

theorem decayCoherence_tasks (p : Processor) :
    (decayCoherence p).current_tasks = p.current_tasks := rfl

theorem releaseTask_tasks (t : String) (p : Processor) :
    (releaseTask t p).current_tasks =
      if t ∈ p.current_tasks then p.current_tasks.erase t
      else p.current_tasks := by
  unfold releaseTask
  split <;> rfl

theorem addTask_state (t : String) (p : Processor) :
    (addTask t p).state = p.state := rfl

theorem decayCoherence_coherence (p : Processor) :
    (decayCoherence p).state.coherence = p.state.coherence * (99/100) := rfl

theorem releaseTask_state (t : String) (p : Processor) :
    (releaseTask t p).state = p.state := by
  unfold releaseTask
  split <;> rfl

theorem recalibrateUnit_tasks (p : Processor) :
    (recalibrateUnit p).current_tasks = p.current_tasks := by
  unfold recalibrateUnit
  split <;> rfl

theorem releaseTask_len_le (t : String) (p : Processor) :
    (releaseTask t p).current_tasks.length ≤ p.current_tasks.length := by
  rw [releaseTask_tasks]
  split
  · exact List.length_erase_le t p.current_tasks
  · exact le_refl _

/-- The `finally` release undoes the admission `append` exactly: for a task
id not previously present, the executing unit's task list returns to its
pre-admission value (decay in between does not touch the task list). -/
theorem release_after_add (t : String) (p : Processor)
    (hp : t ∉ p.current_tasks) :
    (releaseTask t (addTask t p)).current_tasks = p.current_tasks := by
  rw [releaseTask_tasks, addTask_tasks, if_pos (by simp),
    List.erase_append_right _ hp, List.erase_cons_head, List.append_nil]

theorem release_after_decay_add (t : String) (p : Processor)
    (hp : t ∉ p.current_tasks) :
    (releaseTask t (decayCoherence (addTask t p))).current_tasks
      = p.current_tasks := by
  rw [releaseTask_tasks, decayCoherence_tasks, addTask_tasks, if_pos (by simp),
    List.erase_append_right _ hp, List.erase_cons_head, List.append_nil]

theorem keys_recalibrateAll (pool : Pool) :
    (recalibrateAll pool).map Prod.fst = pool.map Prod.fst := by
  unfold recalibrateAll
  rw [List.map_map]
  refine List.map_congr_left fun e he => ?_
  simp

theorem keys_processQuantumData (pool : Pool) (data : List (String × Option ℚ)) :
    (processQuantumData pool data).map Prod.fst = pool.map Prod.fst := by
  unfold processQuantumData
  rw [List.map_map]
  refine List.map_congr_left fun e he => ?_
  cases hl : data.lookup e.1 <;> simp [hl]

theorem keys_exec (pool : Pool) (t : String) (w : WorkOutcome) :
    ((executeQuantumTask pool t w).2).map Prod.fst = pool.map Prod.fst := by
  cases hfind : findAvailable pool with
  | none => simp [executeQuantumTask, hfind]
  | some pid =>
    cases w <;> simp [executeQuantumTask, hfind, keys_modifyProc]

theorem keys_stepPool (pool : Pool) (op : PoolOp) :
    (stepPool pool op).map Prod.fst = pool.map Prod.fst := by
  cases op with
  | exec t w => exact keys_exec pool t w
  | recalibrate => exact keys_recalibrateAll pool
  | quantumData d => exact keys_processQuantumData pool d

theorem keysNodup_stepPool (pool : Pool) (op : PoolOp) (hnd : KeysNodup pool) :
    KeysNodup (stepPool pool op) := by
  unfold KeysNodup at hnd ⊢
  rw [keys_stepPool]
  exact hnd

/-! ### The capacity invariant -/

theorem capInv_modifyProc (pool : Pool) (pid : String) (f : Processor → Processor)
    (hcap : CapInv pool)
    (hf : ∀ e ∈ pool, e.1 = pid → (f e.2).current_tasks.length ≤ 2) :
    CapInv (modifyProc pool pid f) := by
  intro x hx
  unfold modifyProc at hx
  obtain ⟨e, he, rfl⟩ := List.mem_map.mp hx
  by_cases h : e.1 = pid
  · simpa [h] using hf e he h
  · simpa [h] using hcap e he

theorem capInv_exec (pool : Pool) (t : String) (w : WorkOutcome)
    (hnd : KeysNodup pool) (hcap : CapInv pool) :
    CapInv (executeQuantumTask pool t w).2 := by
  cases hfind : findAvailable pool with
  | none => simpa [executeQuantumTask, hfind] using hcap
  | some pid =>
    unfold findAvailable at hfind
    obtain ⟨e0, hfs, he0⟩ := Option.map_eq_some'.mp hfind
    have he0mem : e0 ∈ pool := List.mem_of_find?_eq_some hfs
    have he0sp : e0.2.current_tasks.length < 2 := by
      have := List.find?_some hfs
      simpa [hasSpare] using this
    have hkey : ∀ e ∈ pool, e.1 = pid → e = e0 := fun e he h =>
      keysNodup_inj hnd he he0mem (h.trans he0.symm)
    have hrefind : findAvailable pool = some pid := by
      unfold findAvailable
      rw [hfs, Option.map_some', he0]
    cases w with
    | ok =>
      simp only [executeQuantumTask, hrefind, modifyProc_modifyProc]
      refine capInv_modifyProc pool pid _ hcap fun e he h => ?_
      rw [hkey e he h]
      have h1 := releaseTask_len_le t (decayCoherence (addTask t e0.2))
      rw [decayCoherence_tasks, addTask_tasks, List.length_append,
        List.length_singleton] at h1
      omega
    | raises =>
      simp only [executeQuantumTask, hrefind, modifyProc_modifyProc]
      refine capInv_modifyProc pool pid _ hcap fun e he h => ?_
      rw [hkey e he h]
      have h1 := releaseTask_len_le t (addTask t e0.2)
      rw [addTask_tasks, List.length_append, List.length_singleton] at h1
      omega

theorem capInv_recalibrateAll (pool : Pool) (hcap : CapInv pool) :
    CapInv (recalibrateAll pool) := by
  intro x hx
  unfold recalibrateAll at hx
  obtain ⟨e, he, rfl⟩ := List.mem_map.mp hx
  simpa [recalibrateUnit_tasks] using hcap e he

theorem capInv_processQuantumData (pool : Pool) (data : List (String × Option ℚ))
    (hcap : CapInv pool) : CapInv (processQuantumData pool data) := by
  intro x hx
  unfold processQuantumData at hx
  obtain ⟨e, he, rfl⟩ := List.mem_map.mp hx
  cases hl : data.lookup e.1 <;> simpa [hl] using hcap e he

theorem capInv_stepPool (pool : Pool) (op : PoolOp)
    (hnd : KeysNodup pool) (hcap : CapInv pool) : CapInv (stepPool pool op) := by
  cases op with
  | exec t w => exact capInv_exec pool t w hnd hcap
  | recalibrate => exact capInv_recalibrateAll pool hcap
  | quantumData d => exact capInv_processQuantumData pool d hcap

theorem poolInv_runPool (pool : Pool) (ops : List PoolOp)
    (hnd : KeysNodup pool) (hcap : CapInv pool) :
    KeysNodup (runPool pool ops) ∧ CapInv (runPool pool ops) := by
  induction ops generalizing pool with
  | nil => exact ⟨hnd, hcap⟩
  | cons op ops ih =>
    simp only [runPool, List.foldl_cons]
    exact ih (stepPool pool op) (keysNodup_stepPool pool op hnd)
      (capInv_stepPool pool op hnd hcap)

/-- C2: starting from any pool whose dict keys are distinct and in which no
unit exceeds its 2-slot capacity, the capacity invariant holds after every
sequence of core operations (task executions, recalibration sweeps,
stream-data coherence writes); and a submission arriving when no unit has
spare capacity fails with the resource-exhausted error and leaves every
unit's active task set (indeed the whole pool) unchanged. -/
theorem capacity_invariant_and_exhausted_rejection (pool : Pool)
    (ops : List PoolOp) (hnd : KeysNodup pool) (hcap : CapInv pool) :
    CapInv (runPool pool ops) ∧
    ∀ t w, (∀ e ∈ pool, hasSpare e.2 = false) →
      executeQuantumTask pool t w = (ExecResult.resourceExhausted, pool) := by
  refine ⟨(poolInv_runPool pool ops hnd hcap).2, fun t w hfull => ?_⟩
  have hnone : findAvailable pool = none := by
    unfold findAvailable
    rw [List.find?_eq_none.mpr fun x hx => by simp [hfull x hx]]
    rfl
  simp [executeQuantumTask, hnone]

/-- Witness for C2: the initial pool satisfies both hypotheses, and the
fully loaded pool rejects a submission without mutating anything. -/
theorem capacity_invariant_and_exhausted_rejection_witness :
    CapInv (runPool initialProcessors [PoolOp.exec "t1" WorkOutcome.ok]) ∧
    executeQuantumTask fullPool "t9" WorkOutcome.ok
      = (ExecResult.resourceExhausted, fullPool) :=
  ⟨(capacity_invariant_and_exhausted_rejection initialProcessors
      [PoolOp.exec "t1" WorkOutcome.ok] (by decide) (by decide)).1,
   (capacity_invariant_and_exhausted_rejection fullPool [] (by decide)
      (by decide)).2 "t9" WorkOutcome.ok (by decide)⟩

/-! ### Exactly-once release -/

/-- An execution — successful or raising — leaves every unit's task list
exactly as it was before the submission, provided the task id is fresh. -/
theorem activeSets_exec (pool : Pool) (t : String) (w : WorkOutcome)
    (hfresh : ∀ e ∈ pool, t ∉ e.2.current_tasks) :
    activeSets (executeQuantumTask pool t w).2 = activeSets pool := by
  cases hfind : findAvailable pool with
  | none => simp [executeQuantumTask, hfind]
  | some pid =>
    cases w with
    | ok =>
      simp only [executeQuantumTask, hfind, modifyProc_modifyProc]
      unfold activeSets modifyProc
      rw [List.map_map]
      refine List.map_congr_left fun e he => ?_
      by_cases h : e.1 = pid
      · simp only [Function.comp_apply, h, eq_self_iff_true, if_true]
        rw [release_after_decay_add t e.2 (hfresh e he)]
      · simp [h]
    | raises =>
      simp only [executeQuantumTask, hfind, modifyProc_modifyProc]
      unfold activeSets modifyProc
      rw [List.map_map]
      refine List.map_congr_left fun e he => ?_
      by_cases h : e.1 = pid
      · simp only [Function.comp_apply, h, eq_self_iff_true, if_true]
        rw [release_after_add t e.2 (hfresh e he)]
      · simp [h]

/-- C3: for every admitted task with a fresh id, after the executor run
terminates — whether it returns or raises — the per-unit active task lists
are exactly what they were before the submission (so the release of the
`finally` block happens exactly once), and in particular the task's id is no
longer a member of any unit's active task set. -/
theorem exactly_once_release (pool : Pool) (t : String) (w : WorkOutcome)
    (hfresh : ∀ e ∈ pool, t ∉ e.2.current_tasks) :
    activeSets (executeQuantumTask pool t w).2 = activeSets pool ∧
    ∀ e ∈ (executeQuantumTask pool t w).2, t ∉ e.2.current_tasks := by
  refine ⟨activeSets_exec pool t w hfresh, fun e he => ?_⟩
  have h1 : (e.1, e.2.current_tasks) ∈ activeSets (executeQuantumTask pool t w).2 := by
    unfold activeSets
    exact List.mem_map.mpr ⟨e, he, rfl⟩
  rw [activeSets_exec pool t w hfresh] at h1
  unfold activeSets at h1
  obtain ⟨e2, he2, heq⟩ := List.mem_map.mp h1
  have h2 : e2.2.current_tasks = e.2.current_tasks := congrArg Prod.snd heq
  rw [← h2]
  exact hfresh e2 he2

/-- Witness for C3: a fresh task run on the initial pool leaves the active
sets as they were. -/
theorem exactly_once_release_witness :
    activeSets (executeQuantumTask initialProcessors "t1" WorkOutcome.ok).2
      = activeSets initialProcessors :=
  (exactly_once_release initialProcessors "t1" WorkOutcome.ok (by decide)).1

/-! ### Failure semantics of the executor -/

/-- C4 counterexample: a task whose work raises on the initial pool makes
`execute_quantum_task` propagate the exception to its caller (the function
has a `finally` but no `except` clause), instead of returning a failed
result: the outcome is `ExecResult.raised`, not a `TaskResult`. -/
theorem work_exception_propagates :
    (executeQuantumTask initialProcessors "t1" WorkOutcome.raises).1
      = ExecResult.raised "quantum_core_1" := by decide

/-- C4 (amended): when the task work raises, the exception is not caught —
it escapes `execute_quantum_task` to the caller — but the `finally` block
still releases the unit: the active task lists are restored exactly. -/
theorem work_exception_releases_unit (pool : Pool) (t pid : String)
    (hfind : findAvailable pool = some pid)
    (hfresh : ∀ e ∈ pool, t ∉ e.2.current_tasks) :
    (executeQuantumTask pool t WorkOutcome.raises).1 = ExecResult.raised pid ∧
    activeSets (executeQuantumTask pool t WorkOutcome.raises).2
      = activeSets pool := by
  refine ⟨?_, activeSets_exec pool t WorkOutcome.raises hfresh⟩
  simp [executeQuantumTask, hfind]

/-- Witness for C4 (amended): on the initial pool the raising run reports the
escaped exception from `quantum_core_1` and restores its active set. -/
theorem work_exception_releases_unit_witness :
    (executeQuantumTask initialProcessors "t2" WorkOutcome.raises).1
      = ExecResult.raised "quantum_core_1" ∧
    activeSets (executeQuantumTask initialProcessors "t2" WorkOutcome.raises).2
      = activeSets initialProcessors :=
  work_exception_releases_unit initialProcessors "t2" "quantum_core_1"
    (by decide) (by decide)

/-! ### The quality bound -/

theorem decay_bounds {q : ℚ} (h0 : 0 ≤ q) (h1 : q ≤ 1) :
    0 ≤ q * (99/100) ∧ q * (99/100) ≤ 1 := by
  constructor
  · exact mul_nonneg h0 (by norm_num)
  · calc q * (99/100) ≤ q := mul_le_of_le_one_right h0 (by norm_num)
      _ ≤ 1 := h1

theorem qualityInv_modifyProc (pool : Pool) (pid : String)
    (f : Processor → Processor) (hq : QualityInv pool)
    (hf : ∀ e ∈ pool, e.1 = pid →
      0 ≤ (f e.2).state.coherence ∧ (f e.2).state.coherence ≤ 1) :
    QualityInv (modifyProc pool pid f) := by
  intro x hx
  unfold modifyProc at hx
  obtain ⟨e, he, rfl⟩ := List.mem_map.mp hx
  by_cases h : e.1 = pid
  · simpa [h] using hf e he h
  · simpa [h] using hq e he

theorem qualityInv_exec (pool : Pool) (t : String) (w : WorkOutcome)
    (hq : QualityInv pool) : QualityInv (executeQuantumTask pool t w).2 := by
  cases hfind : findAvailable pool with
  | none => simpa [executeQuantumTask, hfind] using hq
  | some pid =>
    cases w with
    | ok =>
      simp only [executeQuantumTask, hfind, modifyProc_modifyProc]
      refine qualityInv_modifyProc pool pid _ hq fun e he _ => ?_
      have hc : (releaseTask t (decayCoherence (addTask t e.2))).state.coherence
          = e.2.state.coherence * (99/100) := by
        rw [releaseTask_state, decayCoherence_coherence, addTask_state]
      rw [hc]
      exact decay_bounds (hq e he).1 (hq e he).2
    | raises =>
      simp only [executeQuantumTask, hfind, modifyProc_modifyProc]
      refine qualityInv_modifyProc pool pid _ hq fun e he _ => ?_
      have hc : (releaseTask t (addTask t e.2)).state.coherence
          = e.2.state.coherence := by
        rw [releaseTask_state, addTask_state]
      rw [hc]
      exact hq e he

theorem recalibrateUnit_bounds (p : Processor)
    (h : 0 ≤ p.state.coherence ∧ p.state.coherence ≤ 1) :
    0 ≤ (recalibrateUnit p).state.coherence ∧
    (recalibrateUnit p).state.coherence ≤ 1 := by
  unfold recalibrateUnit
  split
  · constructor
    · exact le_min (by norm_num) (by linarith [h.1])
    · exact min_le_left 1 _
  · exact h

theorem qualityInv_recalibrateAll (pool : Pool) (hq : QualityInv pool) :
    QualityInv (recalibrateAll pool) := by
  intro x hx
  unfold recalibrateAll at hx
  obtain ⟨e, he, rfl⟩ := List.mem_map.mp hx
  exact recalibrateUnit_bounds e.2 (hq e he)

theorem qualityInv_initial : QualityInv initialProcessors := by
  intro e he
  simp only [initialProcessors, List.mem_cons, List.not_mem_nil, or_false] at he
  rcases he with rfl | rfl | rfl <;> norm_num [core1, core2, core3]

/-- C5 (amended): the quality bound 0 ≤ quality ≤ 1 is an invariant of the
core's own quality writes — per-task multiplicative decay by 0.99 and
controller recalibration by +0.1 capped at 1.0 — over any operation sequence
that avoids the stream-fed coherence overwrite of `_process_quantum_data`;
that overwrite copies the incoming value unclamped and can leave [0, 1]. -/
theorem quality_bound_internal_ops (pool : Pool) (ops : List PoolOp)
    (hops : ∀ op ∈ ops, isInternalOp op = true) (hq : QualityInv pool) :
    QualityInv (runPool pool ops) := by
  induction ops generalizing pool with
  | nil => exact hq
  | cons op ops ih =>
    simp only [runPool, List.foldl_cons]
    have hop := hops op (List.mem_cons_self op ops)
    refine ih (stepPool pool op) (fun o ho => hops o (List.mem_cons_of_mem op ho)) ?_
    cases op with
    | exec t w => exact qualityInv_exec pool t w hq
    | recalibrate => exact qualityInv_recalibrateAll pool hq
    | quantumData d => simp [isInternalOp] at hop

/-- Witness for C5 (amended): a completed task followed by a recalibration
sweep keeps the initial pool's qualities inside [0, 1]. -/
theorem quality_bound_internal_ops_witness :
    QualityInv (runPool initialProcessors
      [PoolOp.exec "t1" WorkOutcome.ok, PoolOp.recalibrate]) :=
  quality_bound_internal_ops initialProcessors
    [PoolOp.exec "t1" WorkOutcome.ok, PoolOp.recalibrate]
    (by decide) qualityInv_initial

/-- C5 counterexample: the initial pool satisfies the quality bound, but a
single `_process_quantum_data` message carrying `coherence = 2` for
`quantum_core_1` — one of the operations that write a unit's quality —
drives that unit's quality to 2, outside [0, 1]. -/
theorem quality_bound_broken_by_stream_write :
    QualityInv initialProcessors ∧
    ¬ QualityInv (runPool initialProcessors
        [PoolOp.quantumData [("quantum_core_1", some 2)]]) := by
  constructor
  · exact qualityInv_initial
  · intro h
    have hmem : ((core1.1,
        { core1.2 with state := { core1.2.state with coherence := 2 } })
          : String × Processor) ∈
        runPool initialProcessors [PoolOp.quantumData [("quantum_core_1", some 2)]] := by
      simp only [runPool, List.foldl_cons, List.foldl_nil, stepPool,
        processQuantumData, initialProcessors, List.map_cons, List.map_nil]
      left
    have := (h _ hmem).2
    norm_num at this

/-! ### Recalibration tick -/

theorem recalibrateUnit_below (p : Processor) (hc : p.state.coherence < 7/10) :
    (recalibrateUnit p).state.coherence = p.state.coherence + 1/10 := by
  unfold recalibrateUnit
  rw [if_pos hc]
  exact min_eq_right (by linarith)

theorem recalibrateUnit_above (p : Processor) (hc : 7/10 ≤ p.state.coherence) :
    recalibrateUnit p = p := by
  unfold recalibrateUnit
  rw [if_neg (not_lt.mpr hc)]

theorem recalibrateAll_id (pool : Pool)
    (h : ∀ e ∈ pool, 7/10 ≤ e.2.state.coherence) :
    recalibrateAll pool = pool := by
  have hid : ∀ e ∈ pool,
      (fun e : String × Processor => (e.1, recalibrateUnit e.2)) e = e := by
    intro e he
    show (e.1, recalibrateUnit e.2) = e
    rw [recalibrateUnit_above e.2 (h e he)]
  rw [recalibrateAll, List.map_congr_left hid]
  exact List.map_id' pool

theorem recalCount_zero (pool : Pool)
    (h : ∀ e ∈ pool, 7/10 ≤ e.2.state.coherence) :
    recalCount pool = 0 := by
  rw [recalCount, List.filter_eq_nil_iff.mpr fun e he => ?_, List.length_nil]
  simp only [decide_eq_true_eq, not_lt]
  exact h e he

theorem healthy_initial : ∀ e ∈ initialProcessors, 7/10 ≤ e.2.state.coherence := by
  intro e he
  simp only [initialProcessors, List.mem_cons, List.not_mem_nil, or_false] at he
  rcases he with rfl | rfl | rfl <;> norm_num [core1, core2, core3]

/-- C6 (amended): one recalibration sweep relates the pool to its successor
pointwise — ids and task lists unchanged; every unit below the 0.7 threshold
gains exactly 0.1 of quality and stays at most 1; every unit at or above the
threshold is untouched — and when every unit is at or above the threshold the
sweep changes no unit at all and issues zero `recalibrate-unit` actions.
(What the claim misses: the same controller tick also sheds overloaded
streams, and those `shed-channel` actions can repeat on consecutive ticks —
see the counterexample.) -/
theorem recalibration_tick_spec (pool : Pool) :
    List.Forall₂ (fun e e2 : String × Processor =>
      e2.1 = e.1 ∧ e2.2.current_tasks = e.2.current_tasks ∧
      (e.2.state.coherence < 7/10 →
        e2.2.state.coherence = e.2.state.coherence + 1/10 ∧
        e2.2.state.coherence ≤ 1) ∧
      (7/10 ≤ e.2.state.coherence → e2 = e)) pool (recalibrateAll pool) ∧
    ((∀ e ∈ pool, 7/10 ≤ e.2.state.coherence) →
      recalibrateAll pool = pool ∧ recalCount pool = 0) := by
  constructor
  · induction pool with
    | nil => exact List.Forall₂.nil
    | cons e rest ih =>
      have hcons : recalibrateAll (e :: rest)
          = (e.1, recalibrateUnit e.2) :: recalibrateAll rest := rfl
      rw [hcons]
      refine List.Forall₂.cons ⟨rfl, recalibrateUnit_tasks e.2, fun hc => ?_, fun hc => ?_⟩ ih
      · refine ⟨recalibrateUnit_below e.2 hc, ?_⟩
        rw [recalibrateUnit_below e.2 hc]
        linarith
      · show (e.1, recalibrateUnit e.2) = e
        rw [recalibrateUnit_above e.2 hc]
  · intro h
    exact ⟨recalibrateAll_id pool h, recalCount_zero pool h⟩

/-- Witness for C6 (amended): on the healthy initial pool the sweep is a
no-op and issues zero recalibration actions. -/
theorem recalibration_tick_spec_witness :
    recalibrateAll initialProcessors = initialProcessors ∧
    recalCount initialProcessors = 0 :=
  (recalibration_tick_spec initialProcessors).2 healthy_initial

theorem shedStream_replicate901 :
    shedStream (List.replicate 901 (0 : Event)) = List.replicate 801 0 := by
  rw [shedStream, if_pos (by rw [List.length_replicate]; omega), drainUpTo_eq_drop,
    show (901 : Nat) = 100 + 801 from rfl, drop_replicate]

/-- C6 counterexample: start from the healthy pool with one stream at depth
901 and metrics below threshold.  After the first adaptive-optimization tick
every unit is (still) at or above the 0.7 threshold and no task ran in
between, yet the second tick issues one mitigation action — the stream was
shed from 901 to 801 entries, still above the fixed 800 threshold, so
`shed-channel` fires again.  Repeated ticks while the pool is healthy are
therefore not no-ops. -/
theorem second_tick_not_noop :
    (∀ e ∈ (adaptiveLoopTick overloadedState).1.quantum_processors,
      7/10 ≤ e.2.state.coherence) ∧
    (adaptiveLoopTick (adaptiveLoopTick overloadedState).1).2 = 1 := by
  have hneed : needsOptimization overloadedState.performance_metrics = true := by
    norm_num [needsOptimization, overloadedState, metricsZero]
  have h1 : (adaptiveLoopTick overloadedState).1 = overloadedStateAfterTick := by
    simp only [adaptiveLoopTick]
    rw [if_pos hneed]
    show ({ quantum_processors := recalibrateAll overloadedState.quantum_processors,
            data_streams := overloadedState.data_streams.map
              (fun st => (st.1, shedStream st.2)),
            performance_metrics := overloadedState.performance_metrics } : SysState)
        = overloadedStateAfterTick
    rw [show overloadedState.quantum_processors = initialProcessors from rfl,
      recalibrateAll_id initialProcessors healthy_initial,
      show overloadedState.data_streams
        = [("surveillance_stream", List.replicate 901 0)] from rfl,
      List.map_cons, List.map_nil, shedStream_replicate901]
    rfl
  constructor
  · rw [h1]
    exact healthy_initial
  · rw [h1]
    have hneed2 : needsOptimization overloadedStateAfterTick.performance_metrics = true := by
      norm_num [needsOptimization, overloadedStateAfterTick, metricsZero]
    simp only [adaptiveLoopTick]
    rw [if_pos hneed2]
    show recalCount overloadedStateAfterTick.quantum_processors
        + shedCount overloadedStateAfterTick.data_streams = 1
    rw [show overloadedStateAfterTick.quantum_processors = initialProcessors from rfl,
      recalCount_zero initialProcessors healthy_initial,
      show overloadedStateAfterTick.data_streams
        = [("surveillance_stream", List.replicate 801 0)] from rfl,
      shedCount, List.filter_cons,
      if_pos (show decide (800 < (List.replicate 801 (0 : Event)).length) = true by
        rw [List.length_replicate]
        exact decide_eq_true (by omega)),
      List.filter_nil, List.length_cons, List.length_nil]

end OverwatchTOSS
